import Mathlib

/-!
# Fable.React.WebComponent: the property bridge and render scheduler

A shallow embedding of `src/js/fable-react-to-webcomponents/fable-react-to-webcomponent.js`.

The JavaScript module builds a custom-element class around a React component.
Its behaviour is a state machine over

* the closure variables of the exported function (`rendering`,
  `renderAddedProperties`, `eventHandling`), shared by all instances of a class,
* the own properties of an element instance (plain data properties and the
  accessor cells installed by `define.expando`),
* the nodes the adapter appends to the shadow root.

Two collaborators are outside the module and are parameters of the model:

* the host platform: which names live on the prototype chain of
  `HTMLElement.prototype` is the field `Env.htmlElementProto`;
* the rendering framework: `ReactDOM.render` is a `Behaviour`, the finite tree
  of property writes the framework performs on the element while it renders,
  ending in a returned handle or in a thrown error.

Counters and logs (`renderCalls`, `invocations`, `rebinds`) are ghost fields:
the code never reads them, they record what happened.

Callers and the framework assign string-keyed properties only; the three symbols
of the module are written by the module alone. Assignments are taken to be made in
strict code, as the module's own are. Properties are never deleted.
-/

namespace R2WC

/-! ## Values, keys, property tables -/

/-- Property keys of JavaScript objects: strings, or registry symbols
(`Symbol.for name`). -/
inductive Key where
  | str (s : String)
  | sym (s : String)
  deriving DecidableEq, Repr

/-- The registry name of `reactComponentSymbol` (line 1). -/
def reactComponentSymbol : String := "r2wc.reactComponent"

/-- The registry name of `renderSymbol` (line 2). -/
def renderSymbol : String := "r2wc.reactRender"

/-- The registry name of `shouldRenderSymbol` (line 3). -/
def shouldRenderSymbol : String := "r2wc.shouldRender"

/-- JavaScript values, as far as the adapter can tell them apart. Numbers are
integers here; objects and functions are opaque references. -/
inductive Value where
  | undefined
  | null
  | bool (b : Bool)
  | str (s : String)
  | num (n : Int)
  | ref (id : Nat)
  deriving DecidableEq, Repr

/-- What a call can throw: a `TypeError` raised by the language itself, or
whatever the rendering framework threw (identified by a tag). -/
inductive Err where
  | typeError
  | thrown (tag : Nat)
  deriving DecidableEq, Repr

/-- Property lookup in an insertion-ordered property table. -/
def assocGet {α β : Type} [DecidableEq α] (k : α) : List (α × β) → Option β
  | [] => none
  | (k', v) :: rest => if k' = k then some v else assocGet k rest

/-- Property write in an insertion-ordered property table: an existing key keeps
its position, a new key goes last. -/
def assocSet {α β : Type} [DecidableEq α] (k : α) (v : β) : List (α × β) → List (α × β)
  | [] => [(k, v)]
  | (k', v') :: rest => if k' = k then (k, v) :: rest else (k', v') :: assocSet k v rest

/-! ## The arguments of the exported function and the platform -/

/-- The object `ReactComponent.propTypes`: its own enumerable keys (what
`Object.keys` lists) and the keys it inherits through its prototype chain (what
the `in` operator also accepts; for an object literal these are the keys of
`Object.prototype`). -/
structure Schema where
  own : List String
  inherited : List String
  deriving DecidableEq, Repr

/-- The `options` argument. `shadow` and `embeddCss` are used for their
truthiness only; `css` is a string or absent. -/
structure Options where
  shadow : Bool
  css : Option String
  embeddCss : Bool
  deriving DecidableEq, Repr

/-- How a name is found on a prototype chain: as a writable data property (a
method, say) or as an accessor. A write to an accessor goes to its native setter,
inside the platform; an accessor without setter ignores the write. -/
inductive ProtoProp where
  | data
  | accessor
  deriving DecidableEq, Repr

/-- Everything the exported function closes over that never changes:
`ReactComponent.propTypes` (absent when the component declares none), `options`,
`embeddStyle`, and the string names found on the prototype chain of
`HTMLElement.prototype` (up to and including `Object.prototype`). -/
structure Env where
  propTypes : Option Schema
  options : Options
  embeddStyle : String
  htmlElementProto : List (String × ProtoProp)
  deriving DecidableEq, Repr

/-! ## State -/

/-- An own property of an element instance: a plain data property (created by
assignment: enumerable, writable, configurable), or the accessor pair installed
by `define.expando` (enumerable, not configurable), whose closure variable
`value` is the payload. -/
inductive Slot where
  | data (v : Value)
  | cell (v : Value)
  deriving DecidableEq, Repr

/-- The value a read of the property yields (a getter returns `value`). -/
def Slot.value : Slot → Value
  | .data v => v
  | .cell v => v

/-- Is the slot a reactive cell? -/
def Slot.isCell : Slot → Bool
  | .data _ => false
  | .cell _ => true

/-- The container the framework renders into. -/
inductive Container where
  | element
  | shadowRoot
  deriving DecidableEq, Repr

/-- The stylesheet nodes the adapter creates (lines 125-133). -/
inductive Node where
  | style (innerHTML : String)
  | link (rel type href : String)
  deriving DecidableEq, Repr

/-- The data object handed to `React.createElement`. -/
abbrev Data := List (String × Value)

/-- The state of one custom-element class with one instance.

* `rendering`, `renderAddedProperties`, `eventHandling`: the closure variables
  (lines 33-40), which all instances of a class share; `eventHandling` is the
  container the three event functions are bound to, `none` while they are the
  initial placeholders. Theorems that start from an arbitrary state cover whatever
  other instances did to these variables before;
* `props`: the own string-keyed properties of the instance, in creation order;
* `symbols`: the own symbol-keyed properties of the instance (always plain data
  properties), by the name of the registry symbol;
* `shadowChildren`: the nodes the adapter itself appended to the shadow root, in
  order (what the framework renders there is the framework's business);
* `renderCalls`, `invocations`, `rebinds`: ghost counters, the number of calls
  of `this[renderSymbol]()`, the data of each call of `ReactDOM.render` in order,
  and the number of times the event functions were rebound. -/
structure State where
  rendering : Bool
  renderAddedProperties : List (Key × Bool)
  eventHandling : Option Container
  props : List (String × Slot)
  symbols : List (String × Value)
  shadowChildren : List Node
  renderCalls : Nat
  invocations : List Data
  rebinds : Nat
  deriving DecidableEq, Repr

/-- A call returns a new state and, when it throws, the error. State changes made
before a throw stay (JavaScript has no rollback). -/
abbrev Outcome := State × Option Err

/-- What `ReactDOM.render` does, seen from the adapter: it returns a handle, or
throws, or first assigns `value` to the property `key` of the element and then
goes on as `next`. When that assignment starts a nested render pass, the
framework behaves as `nested` inside it. -/
inductive Behaviour where
  | returns (handle : Value)
  | throws (e : Err)
  | write (key : String) (value : Value) (nested : Behaviour) (next : Behaviour)
  deriving DecidableEq, Repr

/-! ## The prototype and its proxy -/

/-- The own properties of `targetPrototype` (lines 54, 91, 97, 145), with the
function each one holds as an opaque reference. -/
def targetOwn (env : Env) : List (Key × Value) :=
  [(.str "constructor", .ref 0), (.str "connectedCallback", .ref 1),
    (.sym renderSymbol, .ref 2)] ++
    (if env.propTypes.isSome then [(.str "attributeChangedCallback", .ref 3)] else [])

/-- How `key` is found on `targetPrototype` or further up its chain
(`Object.create(HTMLElement.prototype)`, line 53). -/
def targetLookup (env : Env) (key : Key) : Option ProtoProp :=
  match assocGet key (targetOwn env) with
  | some _ => some .data
  | none =>
    match key with
    | .str s => assocGet s env.htmlElementProto
    | .sym _ => none

/-- The test `key in target` of line 69 (and `key in targetPrototype` of line 60). -/
def keyInTarget (env : Env) (key : Key) : Bool :=
  (targetLookup env key).isSome

/-- The test `key in ReactComponent.propTypes` (lines 59, 82). The `in` operator
walks the prototype chain of the schema object, and throws a `TypeError` when
`propTypes` is undefined. -/
def keyInPropTypes (env : Env) (key : Key) : Except Err Bool :=
  match env.propTypes with
  | none => .error .typeError
  | some schema =>
    match key with
    | .str s => .ok (decide (s ∈ schema.own) || decide (s ∈ schema.inherited))
    | .sym _ => .ok false

/-- Property descriptors of data properties. -/
structure Descriptor where
  configurable : Bool
  enumerable : Bool
  writable : Bool
  value : Value
  deriving DecidableEq, Repr

/-- The call `Reflect.getOwnPropertyDescriptor(target, key)` of line 78: the
descriptor of an own property of `targetPrototype`. -/
def targetOwnDescriptor (env : Env) (key : Key) : Option Descriptor :=
  match assocGet key (targetOwn env) with
  | some f => some { configurable := true, enumerable := true, writable := true, value := f }
  | none => none

/-- The descriptor fabricated at line 83. -/
def fabricatedDescriptor : Descriptor :=
  { configurable := true, enumerable := true, writable := true, value := .undefined }

/-- The `has` trap of the prototype proxy (lines 58-61). -/
def proxyPrototype.has (env : Env) (key : Key) : Except Err Bool :=
  match keyInPropTypes env key with
  | .error e => .error e
  | .ok declared => .ok (declared || keyInTarget env key)

/-- The `getOwnPropertyDescriptor` trap of the prototype proxy (lines 77-85);
`none` is `undefined`. -/
def proxyPrototype.getOwnPropertyDescriptor (env : Env) (key : Key) :
    Except Err (Option Descriptor) :=
  match targetOwnDescriptor env key with
  | some own => .ok (some own)
  | none =>
    match keyInPropTypes env key with
    | .error e => .error e
    | .ok true => .ok (some fabricatedDescriptor)
    | .ok false => .ok none

/-! ## Property writes and rendering -/

/-- The container of a render pass: `options.shadow ? this.shadowRoot : this`
(line 107). -/
def container (env : Env) : Container :=
  if env.options.shadow then .shadowRoot else .element

/-- The test `this[shouldRenderSymbol] === true` of line 98. -/
def shouldRender (σ : State) : Bool :=
  decide (assocGet shouldRenderSymbol σ.symbols = some (.bool true))

/-- Is `key` an own reactive cell of the instance? -/
def isCell (σ : State) (key : String) : Bool :=
  match assocGet key σ.props with
  | some slot => slot.isCell
  | none => false

/-- A read `instance[key]` of a string key the instance owns; `none` when the
instance does not own it (the prototype chain, that is the platform, answers). -/
def readOwn (σ : State) (key : String) : Option Value :=
  (assocGet key σ.props).map Slot.value

/-- The loop of lines 99-104. `Object.keys(this)` lists the own enumerable string
keys (every own string-keyed property of an instance is enumerable); a key is left
out exactly when `renderAddedProperties[key] !== false` fails. Keys are listed in
creation order (JavaScript lists integer-like names first; the data object is a
record, its order carries no meaning). -/
def gather (σ : State) : Data :=
  σ.props.filterMap fun entry =>
    if assocGet (Key.str entry.1) σ.renderAddedProperties = some false then none
    else some (entry.1, entry.2.value)

/-- The stylesheet node of lines 124-134. -/
def styleNode (env : Env) (css : String) : Node :=
  if env.options.embeddCss then .style env.embeddStyle
  else .link "stylesheet" "text/css" css

/-- The nodes one completed render pass appends (lines 123-136). -/
def styleNodes (env : Env) : List Node :=
  match env.options.css with
  | some css => if decide (css ≠ "") && env.options.shadow then [styleNode env css] else []
  | none => []

/-- Lines 123-136: append the stylesheet node to the container, which is the
shadow root there. -/
def appendStyle (env : Env) (σ : State) : State :=
  { σ with shadowChildren := σ.shadowChildren ++ styleNodes env }

/-- Lines 65-67 of the `set` trap: `if (rendering) renderAddedProperties[key] = true`. -/
def markIfRendering (σ : State) (key : Key) : State :=
  if σ.rendering then
    { σ with renderAddedProperties := assocSet key true σ.renderAddedProperties }
  else σ

/-- The call `Reflect.set(target, key, value, receiver)` of line 70 for a string
key, with the instance as receiver. A name found as an accessor on the prototype
chain goes to its native setter, which keeps its state inside the platform: no own
property appears (what else the setter sets off there, such as reflecting the
value into an attribute, is the platform's part). Otherwise the value becomes an
own data property of the receiver; were the receiver to hold an accessor under
that key, `Reflect.set` would return `false` and the assignment, made in strict
code, would throw. -/
def reflectSet (env : Env) (σ : State) (key : String) (value : Value) : Outcome :=
  match targetLookup env (.str key) with
  | some .accessor => (σ, none)
  | _ =>
    match assocGet key σ.props with
    | some (.cell _) => (σ, some .typeError)
    | _ => ({ σ with props := assocSet key (.data value) σ.props }, none)

/-- An assignment `this[symbol] = value` with one of the adapter's symbols (lines
94, 120). An own property is overwritten in place; otherwise the assignment
reaches the `set` trap, which marks the key when `rendering` and, the key being a
symbol, hands it to `Reflect.set`, which creates the own data property. -/
def assignSymbol (σ : State) (symbol : String) (value : Value) : State :=
  match assocGet symbol σ.symbols with
  | some _ => { σ with symbols := assocSet symbol value σ.symbols }
  | none =>
    let σ1 := markIfRendering σ (.sym symbol)
    { σ1 with symbols := assocSet symbol value σ1.symbols }

/-- The method `targetPrototype[renderSymbol]` (lines 97-140). `fw` is the call
`ReactDOM.render(React.createElement(ReactComponent, data), container)`: it may
change the state (the framework writes properties) and returns the handle or
throws. -/
def render (env : Env) (fw : State → State × Except Err Value) (σ : State) : Outcome :=
  let σ0 := { σ with renderCalls := σ.renderCalls + 1 }
  if shouldRender σ0 = true then
    let data := gather σ0
    let σ1 := { σ0 with rendering := true }
    let σ2 := { σ1 with eventHandling := some (container env), rebinds := σ1.rebinds + 1 }
    let σ3 := { σ2 with invocations := σ2.invocations ++ [data] }
    match fw σ3 with
    | (σ4, .error e) => (σ4, some e)
    | (σ4, .ok handle) =>
      let σ5 := assignSymbol σ4 reactComponentSymbol handle
      ({ appendStyle env σ5 with rendering := false }, none)
  else (σ0, none)

/-- The function `define.expando` (lines 7-19): `Object.defineProperty` with an
enumerable accessor pair, then `receiver[renderSymbol]()`. A data property is
replaced in place; redefining the accessor that an earlier call installed (not
configurable) throws. -/
def define.expando (env : Env) (fw : State → State × Except Err Value) (σ : State)
    (key : String) (value : Value) : Outcome :=
  match assocGet key σ.props with
  | some (.cell _) => (σ, some .typeError)
  | _ => render env fw { σ with props := assocSet key (.cell value) σ.props }

/-- The `set` trap of the prototype proxy (lines 64-75) for a string key; for a
symbol key (`typeof key === "symbol"`) see `assignSymbol`. The lookup
`renderAddedProperties[key]` is truthy for a key marked `true`; it is truthy too
for the names the object inherits from `Object.prototype`, which are `in target`
as well, so that the test comes out the same. -/
def proxyPrototype.set (env : Env) (fw : State → State × Except Err Value) (σ : State)
    (key : String) (value : Value) : Outcome :=
  let σ1 := markIfRendering σ (.str key)
  if assocGet (Key.str key) σ1.renderAddedProperties = some true
      ∨ keyInTarget env (.str key) = true then
    reflectSet env σ1 key value
  else
    define.expando env fw σ1 key value

/-- The assignment `instance[key] = value` for a string key. An own data property
is overwritten; an own accessor runs the setter of `define.expando` (lines 13-16:
store, then render); a key the instance does not own reaches the `set` trap of the
prototype proxy. -/
def assign (env : Env) (fw : State → State × Except Err Value) (σ : State)
    (key : String) (value : Value) : Outcome :=
  match assocGet key σ.props with
  | some (.data _) => ({ σ with props := assocSet key (.data value) σ.props }, none)
  | some (.cell _) => render env fw { σ with props := assocSet key (.cell value) σ.props }
  | none => proxyPrototype.set env fw σ key value

/-- The framework at work inside one render pass: it performs its writes in
order, each through an ordinary assignment on the element, and stops at the first
error. -/
def runFramework (env : Env) : Behaviour → State → State × Except Err Value
  | .returns handle, σ => (σ, .ok handle)
  | .throws e, σ => (σ, .error e)
  | .write key value nested next, σ =>
    match assign env (runFramework env nested) σ key value with
    | (σ1, some e) => (σ1, .error e)
    | (σ1, none) => runFramework env next σ1

/-- The method `connectedCallback` (lines 91-96). -/
def connectedCallback (env : Env) (fw : State → State × Except Err Value) (σ : State) :
    Outcome :=
  render env fw (assignSymbol σ shouldRenderSymbol (.bool true))

/-- The method `attributeChangedCallback` (lines 145-148). -/
def attributeChangedCallback (env : Env) (fw : State → State × Except Err Value) (σ : State)
    (name : String) (_oldValue newValue : Value) : Outcome :=
  assign env fw σ name newValue

/-- The constructor `WebComponent` (lines 42-49) run once on a class just made:
the state right after `new WebComponent()`, with no own property and the closure
variables at their initial values (lines 33-40). -/
def WebComponent (env : Env) : State :=
  { rendering := false
    renderAddedProperties :=
      [(.str "isConnected", (assocGet "isConnected" env.htmlElementProto).isSome)]
    eventHandling := none
    props := []
    symbols := []
    shadowChildren := []
    renderCalls := 0
    invocations := []
    rebinds := 0 }

/-- The static `observedAttributes` (line 144). -/
def observedAttributes (env : Env) : List String :=
  match env.propTypes with
  | some schema => schema.own
  | none => []

/-! ## Events and runs -/

/-- What reaches an instance from outside: a property assignment by a caller, an
attribute-changed notification, the connected notification. Each carries the
behaviour of the framework in the render pass it may start. -/
inductive Event where
  | set (key : String) (value : Value) (fw : Behaviour)
  | attributeChanged (name : String) (oldValue newValue : Value) (fw : Behaviour)
  | connected (fw : Behaviour)
  deriving DecidableEq, Repr

/-- How the framework behaves in the pass the event may start. -/
def Event.framework : Event → Behaviour
  | .set _ _ fw => fw
  | .attributeChanged _ _ _ fw => fw
  | .connected fw => fw

/-- One event. The attribute callback exists only when the component has
`propTypes` (line 143). -/
def deliver (env : Env) (σ : State) : Event → Outcome
  | .set key value fw => assign env (runFramework env fw) σ key value
  | .attributeChanged name oldValue newValue fw =>
    if env.propTypes.isSome then
      attributeChangedCallback env (runFramework env fw) σ name oldValue newValue
    else (σ, none)
  | .connected fw => connectedCallback env (runFramework env fw) σ

/-- A sequence of events; an error ends the event that raised it, not the run. -/
def run (env : Env) (σ : State) : List Event → State
  | [] => σ
  | e :: rest => run env (deliver env σ e).1 rest

/-- The state in which the framework is entered (lines 99-117 done). -/
def passStart (env : Env) (σ : State) : State :=
  { σ with
    renderCalls := σ.renderCalls + 1
    rendering := true
    eventHandling := some (container env)
    rebinds := σ.rebinds + 1
    invocations := σ.invocations ++ [gather σ] }

/-- The end of a pass that the framework left with a handle (lines 120-138). -/
def passEnd (env : Env) (σ : State) (handle : Value) : State :=
  { appendStyle env (assignSymbol σ reactComponentSymbol handle) with rendering := false }

/-- Everything that can happen to an instance next: an event from outside, the
framework going on with writes inside a pass, a pass coming to its end. -/
inductive Step (env : Env) : State → State → Prop where
  | event (σ : State) (ev : Event) : Step env σ (deliver env σ ev).1
  | framework (σ : State) (b : Behaviour) : Step env σ (runFramework env b σ).1
  | finish (σ : State) (handle : Value) : Step env σ (passEnd env σ handle)

/-- The states an instance can be in later. -/
def Reach (env : Env) : State → State → Prop :=
  Relation.ReflTransGen (Step env)

/-! ## Properties of states and of frameworks -/

/-- The names of the reactive cells of the instance. -/
def cellKeys (σ : State) : List String :=
  (σ.props.filter fun entry => entry.2.isCell).map Prod.fst

/-- The framework writes none of `keys` in the pass itself (what it would do in
nested passes does not matter: with no reactive cell written, none starts). -/
def Behaviour.avoids (keys : List String) : Behaviour → Bool
  | .returns _ => true
  | .throws _ => true
  | .write key _ _ next => decide (key ∉ keys) && next.avoids keys

/-- How the framework's call ends when none of its writes throws. -/
def Behaviour.result : Behaviour → Except Err Value
  | .returns handle => .ok handle
  | .throws e => .error e
  | .write _ _ _ next => next.result

/-- What separates two states of one render pass when the framework wrote no
reactive cell in between: the guard is up, nothing was rendered, rebound or
appended, the symbol-keyed properties, the properties named in `keys` and the set
of reactive cells are as before. -/
structure Quiet (keys : List String) (σ σ' : State) : Prop where
  rendering : σ'.rendering = true
  renderCalls : σ'.renderCalls = σ.renderCalls
  invocations : σ'.invocations = σ.invocations
  rebinds : σ'.rebinds = σ.rebinds
  shadowChildren : σ'.shadowChildren = σ.shadowChildren
  eventHandling : σ'.eventHandling = σ.eventHandling
  symbols : σ'.symbols = σ.symbols
  kept : ∀ k, k ∈ keys → assocGet k σ'.props = assocGet k σ.props
  cells : ∀ k, isCell σ' k = isCell σ k

/-- A property of states that each elementary state change of the adapter keeps,
taken under the conditions in which the code makes that change: entering the
render method, entering the framework, storing the handle, raising the
should-render flag, ending a pass, marking a key, storing a plain data property
where no cell is, storing through a cell, and installing a cell for a key that is
not owned and not marked. -/
structure Stable (env : Env) (P : State → Prop) : Prop where
  tick : ∀ σ, P σ → P { σ with renderCalls := σ.renderCalls + 1 }
  start : ∀ σ, P σ → P (passStart env σ)
  handle : ∀ σ value, P σ → P (assignSymbol σ reactComponentSymbol value)
  connect : ∀ σ, P σ → P (assignSymbol σ shouldRenderSymbol (.bool true))
  finish : ∀ σ, P σ → P { appendStyle env σ with rendering := false }
  mark : ∀ σ key, P σ → P (markIfRendering σ key)
  setData : ∀ σ key value, P σ → isCell σ key = false →
    P { σ with props := assocSet key (.data value) σ.props }
  setCell : ∀ σ key value, P σ → isCell σ key = true →
    P { σ with props := assocSet key (.cell value) σ.props }
  install : ∀ σ key value, P σ → assocGet key σ.props = none →
    assocGet (Key.str key) σ.renderAddedProperties ≠ some true →
    P { σ with props := assocSet key (.cell value) σ.props }

/-- The key is a reactive cell of the instance. -/
def CellAt (key : String) (σ : State) : Prop :=
  isCell σ key = true

/-- The passes logged so far begin with `base`. -/
def Extends (base : List Data) (σ : State) : Prop :=
  ∃ rest, σ.invocations = base ++ rest

/-- The instance owns the key. -/
def Owned (key : String) (σ : State) : Prop :=
  (assocGet key σ.props).isSome = true

/-- The key is marked render-added and is no reactive cell. -/
def MarkedPlain (key : String) (σ : State) : Prop :=
  assocGet (Key.str key) σ.renderAddedProperties = some true ∧ isCell σ key = false

/-- The spec's example: schema `{ name, age }` written as an object literal
(which inherits `constructor`, `toString`, ... from `Object.prototype`), options
`{ shadow: true, css: "style.css" }`, on a platform whose elements have the
accessors `id`, `title`, `isConnected` and the methods `click`, `constructor`,
`toString`. -/
def exampleEnv : Env :=
  { propTypes := some { own := ["name", "age"], inherited := ["constructor", "toString"] }
    options := { shadow := true, css := some "style.css", embeddCss := false }
    embeddStyle := ""
    htmlElementProto :=
      [("id", .accessor), ("title", .accessor), ("isConnected", .accessor),
       ("click", .data), ("constructor", .data), ("toString", .data)] }

/-- The example component rendered into the element itself (light DOM), where
React keeps its root under `_reactRootContainer` on the container. -/
def lightEnv : Env :=
  { exampleEnv with options := { shadow := false, css := none, embeddCss := false } }

/-- A component whose schema declares `title`, a name that every element has as
an accessor on its prototype chain. -/
def titledEnv : Env :=
  { exampleEnv with
    propTypes := some { own := ["title"], inherited := ["constructor", "toString"] } }

/-- The example instance after its connected notification, the framework
returning at once: connected, no property yet. -/
def connectedExample : State :=
  run exampleEnv (WebComponent exampleEnv) [.connected (.returns (.ref 7))]

/-- The example instance, connected, with the reactive cell `name`. -/
def namedExample : State :=
  run exampleEnv (WebComponent exampleEnv)
    [.set "name" (.str "Ada") (.returns (.ref 7)), .connected (.returns (.ref 7))]

/-- The light-DOM example after its connected notification, stopped inside a
later pass at the moment the framework has just been entered. -/
def lightInPass : State :=
  passStart lightEnv (run lightEnv (WebComponent lightEnv) [.connected (.returns (.ref 7))])

/-- A framework that assigns `name` on the element while it renders. -/
def rewritesName : Behaviour :=
  .write "name" (.str "Eve") (.returns (.ref 7)) (.returns (.ref 7))

/-- A framework that assigns the cell `name` and then a new key `extra` while it
renders. -/
def rewritesNameThenExtra : Behaviour :=
  .write "name" (.str "Eve") (.returns (.ref 7))
    (.write "extra" (.num 1) (.returns (.ref 7)) (.returns (.ref 7)))

/-! ## Property tables: lemmas -/

theorem assocGet_assocSet_same {α β : Type} [DecidableEq α] (k : α) (v : β)
    (l : List (α × β)) : assocGet k (assocSet k v l) = some v := by
  induction l with
  | nil => simp [assocSet, assocGet]
  | cons e rest ih =>
    obtain ⟨k', v'⟩ := e
    by_cases h : k' = k <;> simp [assocSet, assocGet, h, ih]

theorem assocGet_assocSet_other {α β : Type} [DecidableEq α] (k k' : α) (v : β)
    (l : List (α × β)) (h : k' ≠ k) : assocGet k' (assocSet k v l) = assocGet k' l := by
  induction l with
  | nil => simp [assocSet, assocGet, Ne.symm h]
  | cons e rest ih =>
    obtain ⟨k'', v''⟩ := e
    by_cases h1 : k'' = k
    · subst h1
      simp [assocSet, assocGet, Ne.symm h]
    · by_cases h2 : k'' = k'
      · subst h2
        simp [assocSet, assocGet, h1]
      · simp [assocSet, assocGet, h1, h2, ih]

/-- An own key whose mark is not `false` is gathered, with the value a read
yields. -/
theorem assocGet_gather_of_own (σ : State) (key : String) (slot : Slot)
    (hown : assocGet key σ.props = some slot)
    (hmark : assocGet (Key.str key) σ.renderAddedProperties ≠ some false) :
    assocGet key (gather σ) = some slot.value := by
  unfold gather
  generalize σ.props = l at hown
  induction l with
  | nil => simp [assocGet] at hown
  | cons e rest ih =>
    obtain ⟨k', s'⟩ := e
    by_cases h : k' = key
    · subst h
      simp only [assocGet, if_true] at hown
      cases hown
      simp [List.filterMap_cons, hmark, assocGet]
    · simp only [assocGet, h, if_false] at hown
      simp only [List.filterMap_cons]
      split
      · exact ih hown
      · rename_i heq
        split at heq
        · cases heq
        · cases heq
          simp [assocGet, h, ih hown]

/-- A key the instance does not own is not gathered. -/
theorem assocGet_gather_of_not_own (σ : State) (key : String)
    (hown : assocGet key σ.props = none) : assocGet key (gather σ) = none := by
  unfold gather
  generalize σ.props = l at hown
  induction l with
  | nil => simp [assocGet]
  | cons e rest ih =>
    obtain ⟨k', s'⟩ := e
    by_cases h : k' = key
    · subst h
      simp [assocGet] at hown
    · simp only [assocGet, h, if_false] at hown
      simp only [List.filterMap_cons]
      split
      · exact ih hown
      · rename_i heq
        split at heq
        · cases heq
        · cases heq
          simp [assocGet, h, ih hown]

theorem isCell_mem_cellKeys (σ : State) (key : String) (h : isCell σ key = true) :
    key ∈ cellKeys σ := by
  unfold isCell at h
  unfold cellKeys
  generalize σ.props = l at h
  induction l with
  | nil => simp [assocGet] at h
  | cons e rest ih =>
    obtain ⟨k', s'⟩ := e
    by_cases hk : k' = key
    · subst hk
      simp only [assocGet, if_true] at h
      simp [List.filter_cons, h]
    · simp only [assocGet, hk, if_false] at h
      have := ih h
      simp only [List.filter_cons]
      split
      · simp only [List.map_cons, List.mem_cons]
        exact Or.inr this
      · exact this

/-- Storing a plain data property under a key that is no reactive cell keeps the
other properties and the set of reactive cells. -/
theorem isCell_setData (σ τ : State) (key : String) (value : Value)
    (hprops : τ.props = assocSet key (.data value) σ.props)
    (hcell : isCell σ key = false) (k : String) : isCell τ k = isCell σ k := by
  by_cases hk : k = key
  · subst hk
    simp only [isCell, hprops, assocGet_assocSet_same, Slot.isCell]
    simpa [isCell] using hcell.symm
  · simp only [isCell, hprops, assocGet_assocSet_other key k _ _ hk]

/-! ## The steps of the set trap and of the render method -/

theorem markIfRendering_props (σ : State) (key : Key) :
    (markIfRendering σ key).props = σ.props := by
  unfold markIfRendering; split <;> rfl

theorem markIfRendering_symbols (σ : State) (key : Key) :
    (markIfRendering σ key).symbols = σ.symbols := by
  unfold markIfRendering; split <;> rfl

theorem markIfRendering_rendering (σ : State) (key : Key) :
    (markIfRendering σ key).rendering = σ.rendering := by
  unfold markIfRendering; split <;> rfl

theorem markIfRendering_renderCalls (σ : State) (key : Key) :
    (markIfRendering σ key).renderCalls = σ.renderCalls := by
  unfold markIfRendering; split <;> rfl

theorem markIfRendering_invocations (σ : State) (key : Key) :
    (markIfRendering σ key).invocations = σ.invocations := by
  unfold markIfRendering; split <;> rfl

theorem markIfRendering_rebinds (σ : State) (key : Key) :
    (markIfRendering σ key).rebinds = σ.rebinds := by
  unfold markIfRendering; split <;> rfl

theorem markIfRendering_shadowChildren (σ : State) (key : Key) :
    (markIfRendering σ key).shadowChildren = σ.shadowChildren := by
  unfold markIfRendering; split <;> rfl

theorem markIfRendering_eventHandling (σ : State) (key : Key) :
    (markIfRendering σ key).eventHandling = σ.eventHandling := by
  unfold markIfRendering; split <;> rfl

/-- While the guard is up the trap marks the key. -/
theorem markIfRendering_mark (σ : State) (key : Key) (h : σ.rendering = true) :
    assocGet key (markIfRendering σ key).renderAddedProperties = some true := by
  simp [markIfRendering, h, assocGet_assocSet_same]

/-- With the guard down the trap leaves the state alone. -/
theorem markIfRendering_idle (σ : State) (key : Key) (h : σ.rendering = false) :
    markIfRendering σ key = σ := by
  simp [markIfRendering, h]

/-- A mark, once `true`, stays. -/
theorem markIfRendering_keeps (σ : State) (key k : Key)
    (h : assocGet k σ.renderAddedProperties = some true) :
    assocGet k (markIfRendering σ key).renderAddedProperties = some true := by
  unfold markIfRendering
  split
  · by_cases hk : k = key
    · subst hk; exact assocGet_assocSet_same _ _ _
    · simpa [assocGet_assocSet_other key k _ _ hk] using h
  · exact h

/-- The call `Reflect.set` changes nothing but the string-keyed properties. -/
theorem reflectSet_state (env : Env) (σ : State) (key : String) (value : Value) :
    (reflectSet env σ key value).1 = σ ∨
      (reflectSet env σ key value).1 =
        { σ with props := assocSet key (.data value) σ.props } := by
  unfold reflectSet
  split
  · exact Or.inl rfl
  · split
    · exact Or.inl rfl
    · exact Or.inr rfl

/-- The call `Reflect.set` on a receiver that holds no accessor under the key succeeds, and
either leaves the instance alone (native setter) or stores a plain data
property. -/
theorem reflectSet_plain (env : Env) (σ : State) (key : String) (value : Value)
    (hcell : isCell σ key = false) :
    (reflectSet env σ key value).2 = none ∧
      ((reflectSet env σ key value).1 = σ ∨
        (reflectSet env σ key value).1 =
          { σ with props := assocSet key (.data value) σ.props }) := by
  unfold reflectSet
  cases targetLookup env (Key.str key) with
  | none =>
    cases hown : assocGet key σ.props with
    | none => exact ⟨rfl, Or.inr rfl⟩
    | some slot =>
      cases slot with
      | data v0 => exact ⟨rfl, Or.inr rfl⟩
      | cell v0 => simp [isCell, hown, Slot.isCell] at hcell
  | some pp =>
    cases pp with
    | accessor => exact ⟨rfl, Or.inl rfl⟩
    | data =>
      cases hown : assocGet key σ.props with
      | none => exact ⟨rfl, Or.inr rfl⟩
      | some slot =>
        cases slot with
        | data v0 => exact ⟨rfl, Or.inr rfl⟩
        | cell v0 => simp [isCell, hown, Slot.isCell] at hcell

theorem assignSymbol_props (σ : State) (symbol : String) (value : Value) :
    (assignSymbol σ symbol value).props = σ.props := by
  unfold assignSymbol
  split
  · rfl
  · exact markIfRendering_props _ _

theorem assignSymbol_other (σ : State) (symbol other : String) (value : Value)
    (h : other ≠ symbol) :
    assocGet other (assignSymbol σ symbol value).symbols = assocGet other σ.symbols := by
  unfold assignSymbol
  split
  · exact assocGet_assocSet_other _ _ _ _ h
  · simp only [markIfRendering_symbols]
    exact assocGet_assocSet_other _ _ _ _ h

theorem assignSymbol_rendering (σ : State) (symbol : String) (value : Value) :
    (assignSymbol σ symbol value).rendering = σ.rendering := by
  unfold assignSymbol
  split
  · rfl
  · exact markIfRendering_rendering _ _

theorem assignSymbol_renderCalls (σ : State) (symbol : String) (value : Value) :
    (assignSymbol σ symbol value).renderCalls = σ.renderCalls := by
  unfold assignSymbol
  split
  · rfl
  · exact markIfRendering_renderCalls _ _

theorem assignSymbol_invocations (σ : State) (symbol : String) (value : Value) :
    (assignSymbol σ symbol value).invocations = σ.invocations := by
  unfold assignSymbol
  split
  · rfl
  · exact markIfRendering_invocations _ _

theorem assignSymbol_rebinds (σ : State) (symbol : String) (value : Value) :
    (assignSymbol σ symbol value).rebinds = σ.rebinds := by
  unfold assignSymbol
  split
  · rfl
  · exact markIfRendering_rebinds _ _

theorem assignSymbol_shadowChildren (σ : State) (symbol : String) (value : Value) :
    (assignSymbol σ symbol value).shadowChildren = σ.shadowChildren := by
  unfold assignSymbol
  split
  · rfl
  · exact markIfRendering_shadowChildren _ _

theorem assignSymbol_eventHandling (σ : State) (symbol : String) (value : Value) :
    (assignSymbol σ symbol value).eventHandling = σ.eventHandling := by
  unfold assignSymbol
  split
  · rfl
  · exact markIfRendering_eventHandling _ _

/-- A mark that is not `false` is not made `false` by storing a symbol. -/
theorem assignSymbol_mark (σ : State) (symbol : String) (value : Value) (key : String) :
    assocGet (Key.str key) (assignSymbol σ symbol value).renderAddedProperties =
      assocGet (Key.str key) σ.renderAddedProperties := by
  unfold assignSymbol
  split
  · rfl
  · simp only [markIfRendering]
    split
    · exact assocGet_assocSet_other _ _ _ _ (by simp)
    · rfl

theorem isCell_assignSymbol (σ : State) (symbol : String) (value : Value) (k : String) :
    isCell (assignSymbol σ symbol value) k = isCell σ k := by
  simp only [isCell, assignSymbol_props]

/-- On an instance that is not connected a render call only counts. -/
theorem render_idle (env : Env) (fw : State → State × Except Err Value) (σ : State)
    (h : shouldRender σ = false) :
    render env fw σ = ({ σ with renderCalls := σ.renderCalls + 1 }, none) := by
  have h0 : shouldRender { σ with renderCalls := σ.renderCalls + 1 } = false := h
  simp [render, h0]

/-- The render method on a connected instance, step by step. -/
theorem render_connected (env : Env) (fw : State → State × Except Err Value) (σ : State)
    (h : shouldRender σ = true) :
    render env fw σ =
      match fw (passStart env σ) with
      | (σ4, .error e) => (σ4, some e)
      | (σ4, .ok handle) =>
        ({ appendStyle env (assignSymbol σ4 reactComponentSymbol handle) with
            rendering := false }, none) := by
  have h0 : shouldRender { σ with renderCalls := σ.renderCalls + 1 } = true := h
  have hg : gather { σ with renderCalls := σ.renderCalls + 1 } = gather σ := rfl
  simp only [render, h0, if_true, hg]
  rfl

/-- The first write of a name the instance does not own, made with the guard
down, the name unmarked and absent from the prototype chain, is
`define.expando`: the cell is stored, then the render method runs. -/
theorem assign_fresh (env : Env) (fw : State → State × Except Err Value) (σ : State)
    (key : String) (value : Value)
    (hown : assocGet key σ.props = none) (hguard : σ.rendering = false)
    (hmark : assocGet (Key.str key) σ.renderAddedProperties ≠ some true)
    (hproto : keyInTarget env (.str key) = false) :
    assign env fw σ key value =
      render env fw { σ with props := assocSet key (.cell value) σ.props } := by
  simp only [assign, hown, proxyPrototype.set, markIfRendering_idle σ _ hguard, hmark, hproto,
    false_or, if_false, define.expando]
  simp

/-- A write to a reactive cell is its setter: store, then render. -/
theorem assign_cell (env : Env) (fw : State → State × Except Err Value) (σ : State)
    (key : String) (value : Value) (h : isCell σ key = true) :
    assign env fw σ key value =
      render env fw { σ with props := assocSet key (.cell value) σ.props } := by
  unfold isCell at h
  unfold assign
  cases hown : assocGet key σ.props with
  | none => simp [hown] at h
  | some slot =>
    cases slot with
    | data v0 => simp [hown, Slot.isCell] at h
    | cell v0 => rfl

theorem render_stable (env : Env) (P : State → Prop) (hP : Stable env P)
    (fw : State → State × Except Err Value) (hfw : ∀ τ, P τ → P (fw τ).1)
    (σ : State) (h : P σ) : P (render env fw σ).1 := by
  cases hc : shouldRender σ with
  | false =>
    rw [render_idle env fw σ hc]
    exact hP.tick σ h
  | true =>
    rw [render_connected env fw σ hc]
    have h1 := hfw _ (hP.start σ h)
    cases hr : fw (passStart env σ) with
    | mk σ4 res =>
      rw [hr] at h1
      cases res with
      | error e => exact h1
      | ok handle => exact hP.finish _ (hP.handle _ _ h1)

theorem assign_stable (env : Env) (P : State → Prop) (hP : Stable env P)
    (fw : State → State × Except Err Value) (hfw : ∀ τ, P τ → P (fw τ).1)
    (σ : State) (key : String) (value : Value) (h : P σ) :
    P (assign env fw σ key value).1 := by
  unfold assign
  cases hown : assocGet key σ.props with
  | some slot =>
    cases slot with
    | data v0 =>
      exact hP.setData σ key value h (by simp [isCell, hown, Slot.isCell])
    | cell v0 =>
      exact render_stable env P hP fw hfw _
        (hP.setCell σ key value h (by simp [isCell, hown, Slot.isCell]))
  | none =>
    have hm := hP.mark σ (.str key) h
    have hown1 : assocGet key (markIfRendering σ (.str key)).props = none := by
      rw [markIfRendering_props]; exact hown
    simp only [proxyPrototype.set]
    split
    · rcases reflectSet_state env (markIfRendering σ (.str key)) key value with h' | h'
      · rw [h']; exact hm
      · rw [h']
        exact hP.setData _ key value hm (by simp [isCell, hown1])
    · rename_i hcond
      have hmark : assocGet (Key.str key) (markIfRendering σ (.str key)).renderAddedProperties
          ≠ some true := fun hh => hcond (Or.inl hh)
      simp only [define.expando, hown1]
      exact render_stable env P hP fw hfw _ (hP.install _ key value hm hown1 hmark)

theorem runFramework_stable (env : Env) (P : State → Prop) (hP : Stable env P)
    (b : Behaviour) : ∀ σ, P σ → P (runFramework env b σ).1 := by
  induction b with
  | returns handle => intro σ h; exact h
  | throws e => intro σ h; exact h
  | write key value nested next ihnested ihnext =>
    intro σ h
    have h1 := assign_stable env P hP (runFramework env nested) ihnested σ key value h
    simp only [runFramework]
    cases hr : assign env (runFramework env nested) σ key value with
    | mk σ1 err =>
      rw [hr] at h1
      cases err with
      | some e => exact h1
      | none => exact ihnext σ1 h1

theorem deliver_stable (env : Env) (P : State → Prop) (hP : Stable env P)
    (ev : Event) (σ : State) (h : P σ) : P (deliver env σ ev).1 := by
  cases ev with
  | set key value fw =>
    exact assign_stable env P hP _ (runFramework_stable env P hP fw) σ key value h
  | attributeChanged name old new fw =>
    simp only [deliver]
    split
    · exact assign_stable env P hP _ (runFramework_stable env P hP fw) σ name new h
    · exact h
  | connected fw =>
    exact render_stable env P hP _ (runFramework_stable env P hP fw) _ (hP.connect _ h)

/-- A stable property holds in every later state. -/
theorem reach_stable (env : Env) (P : State → Prop) (hP : Stable env P)
    (σ σ' : State) (hreach : Reach env σ σ') (h : P σ) : P σ' := by
  induction hreach with
  | refl => exact h
  | tail _ hstep ih =>
    cases hstep with
    | event ev => exact deliver_stable env P hP ev _ ih
    | framework b => exact runFramework_stable env P hP b _ ih
    | finish handle => exact hP.finish _ (hP.handle _ _ ih)

theorem cellAt_stable (env : Env) (k : String) : Stable env (CellAt k) where
  tick := fun _ h => h
  start := fun _ h => h
  handle := fun σ value h => by
    unfold CellAt at h ⊢
    rw [isCell_assignSymbol]; exact h
  connect := fun σ h => by
    unfold CellAt at h ⊢
    rw [isCell_assignSymbol]; exact h
  finish := fun _ h => h
  mark := fun σ key h => by
    unfold CellAt at h ⊢
    simpa only [isCell, markIfRendering_props] using h
  setData := fun σ key value h hc => by
    unfold CellAt at h ⊢
    rw [isCell_setData σ _ key value rfl hc k]
    exact h
  setCell := fun σ key value h _ => by
    unfold CellAt at h ⊢
    by_cases hk : k = key
    · subst hk
      simp [isCell, assocGet_assocSet_same, Slot.isCell]
    · simpa only [isCell, assocGet_assocSet_other key k _ _ hk] using h
  install := fun σ key value h _ _ => by
    unfold CellAt at h ⊢
    by_cases hk : k = key
    · subst hk
      simp [isCell, assocGet_assocSet_same, Slot.isCell]
    · simpa only [isCell, assocGet_assocSet_other key k _ _ hk] using h

theorem extends_stable (env : Env) (base : List Data) : Stable env (Extends base) where
  tick := fun _ h => h
  start := fun σ h => by
    obtain ⟨rest, h⟩ := h
    exact ⟨rest ++ [gather σ], by simp only [passStart, h, List.append_assoc]⟩
  handle := fun σ value h => by
    obtain ⟨rest, h⟩ := h
    exact ⟨rest, by rw [assignSymbol_invocations]; exact h⟩
  connect := fun σ h => by
    obtain ⟨rest, h⟩ := h
    exact ⟨rest, by rw [assignSymbol_invocations]; exact h⟩
  finish := fun _ h => h
  mark := fun σ key h => by
    obtain ⟨rest, h⟩ := h
    exact ⟨rest, by rw [markIfRendering_invocations]; exact h⟩
  setData := fun _ _ _ h _ => h
  setCell := fun _ _ _ h _ => h
  install := fun _ _ _ h _ _ => h

theorem owned_stable (env : Env) (k : String) : Stable env (Owned k) where
  tick := fun _ h => h
  start := fun _ h => h
  handle := fun σ value h => by
    unfold Owned at h ⊢
    rw [assignSymbol_props]; exact h
  connect := fun σ h => by
    unfold Owned at h ⊢
    rw [assignSymbol_props]; exact h
  finish := fun _ h => h
  mark := fun σ key h => by
    unfold Owned at h ⊢
    rw [markIfRendering_props]; exact h
  setData := fun σ key value h _ => by
    unfold Owned at h ⊢
    by_cases hk : k = key
    · subst hk; simp [assocGet_assocSet_same]
    · simpa only [assocGet_assocSet_other key k _ _ hk] using h
  setCell := fun σ key value h _ => by
    unfold Owned at h ⊢
    by_cases hk : k = key
    · subst hk; simp [assocGet_assocSet_same]
    · simpa only [assocGet_assocSet_other key k _ _ hk] using h
  install := fun σ key value h _ _ => by
    unfold Owned at h ⊢
    by_cases hk : k = key
    · subst hk; simp [assocGet_assocSet_same]
    · simpa only [assocGet_assocSet_other key k _ _ hk] using h

theorem markedPlain_stable (env : Env) (k : String) : Stable env (MarkedPlain k) where
  tick := fun _ h => h
  start := fun _ h => h
  handle := fun σ value h =>
    ⟨by rw [assignSymbol_mark]; exact h.1, by rw [isCell_assignSymbol]; exact h.2⟩
  connect := fun σ h =>
    ⟨by rw [assignSymbol_mark]; exact h.1, by rw [isCell_assignSymbol]; exact h.2⟩
  finish := fun _ h => h
  mark := fun σ key h =>
    ⟨markIfRendering_keeps σ key _ h.1,
      by simpa only [isCell, markIfRendering_props] using h.2⟩
  setData := fun σ key value h hc => by
    refine ⟨h.1, ?_⟩
    rw [isCell_setData σ _ key value rfl hc k]
    exact h.2
  setCell := fun σ key value h hc => by
    refine ⟨h.1, ?_⟩
    have hne : k ≠ key := by
      intro hk
      have h2 := h.2
      rw [hk, hc] at h2
      cases h2
    simpa only [isCell, assocGet_assocSet_other key k _ _ hne] using h.2
  install := fun σ key value h _ hmark => by
    refine ⟨h.1, ?_⟩
    have hne : k ≠ key := by
      intro hk
      have h1 := h.1
      rw [hk] at h1
      exact hmark h1
    simpa only [isCell, assocGet_assocSet_other key k _ _ hne] using h.2

/-- Whatever the framework does, the pass of a connected instance is logged first,
with the data gathered on entry; what follows in the log started inside it. -/
theorem render_first (env : Env) (b : Behaviour) (σ : State)
    (hc : shouldRender σ = true) :
    ∃ rest, (render env (runFramework env b) σ).1.invocations
      = σ.invocations ++ gather σ :: rest := by
  rw [render_connected env _ σ hc]
  have h0 : Extends (σ.invocations ++ [gather σ]) (passStart env σ) :=
    ⟨[], by simp [passStart]⟩
  obtain ⟨rest, hrest⟩ :=
    runFramework_stable env _ (extends_stable env (σ.invocations ++ [gather σ])) b _ h0
  refine ⟨rest, ?_⟩
  cases hr : runFramework env b (passStart env σ) with
  | mk σ4 res =>
    rw [hr] at hrest
    cases res with
    | error e => simpa using hrest
    | ok handle =>
      simp only [appendStyle, assignSymbol_invocations]
      simpa using hrest

/-- A write to a key that is marked render-added and is no reactive cell is a
plain assignment: no render call, no invocation, no cell, no error. -/
theorem assign_markedPlain (env : Env) (fw : State → State × Except Err Value) (σ : State)
    (k : String) (value : Value) (h : MarkedPlain k σ) :
    (assign env fw σ k value).2 = none ∧
    isCell (assign env fw σ k value).1 k = false ∧
    (assign env fw σ k value).1.renderCalls = σ.renderCalls ∧
    (assign env fw σ k value).1.invocations = σ.invocations := by
  obtain ⟨hmark, hcell⟩ := h
  unfold assign
  cases hown : assocGet k σ.props with
  | some slot =>
    cases slot with
    | data v0 =>
      exact ⟨rfl, by simp [isCell, assocGet_assocSet_same, Slot.isCell], rfl, rfl⟩
    | cell v0 => simp [isCell, hown, Slot.isCell] at hcell
  | none =>
    have hm := markIfRendering_keeps σ (.str k) _ hmark
    have hcell1 : isCell (markIfRendering σ (.str k)) k = false := by
      simpa only [isCell, markIfRendering_props] using hcell
    simp only [proxyPrototype.set, hm, true_or, if_true]
    obtain ⟨he, hst⟩ := reflectSet_plain env (markIfRendering σ (.str k)) k value hcell1
    refine ⟨he, ?_⟩
    rcases hst with hst | hst
    · rw [hst]
      exact ⟨hcell1, markIfRendering_renderCalls _ _, markIfRendering_invocations _ _⟩
    · rw [hst]
      exact ⟨by simp [isCell, assocGet_assocSet_same, Slot.isCell],
        markIfRendering_renderCalls _ _, markIfRendering_invocations _ _⟩

/-- While the guard is up, the first write of a key the instance does not own
marks the key and is a plain assignment. -/
theorem assign_during_render (env : Env) (fw : State → State × Except Err Value) (σ : State)
    (k : String) (value : Value) (hguard : σ.rendering = true)
    (hown : assocGet k σ.props = none) :
    MarkedPlain k (assign env fw σ k value).1 ∧
    (assign env fw σ k value).1.renderCalls = σ.renderCalls ∧
    (assign env fw σ k value).1.invocations = σ.invocations ∧
    (targetLookup env (.str k) ≠ some .accessor →
      assocGet k (assign env fw σ k value).1.props = some (.data value)) := by
  have hcell : isCell σ k = false := by simp [isCell, hown]
  have hm := markIfRendering_mark σ (.str k) hguard
  have hcell1 : isCell (markIfRendering σ (.str k)) k = false := by
    simpa only [isCell, markIfRendering_props] using hcell
  have hown1 : assocGet k (markIfRendering σ (.str k)).props = none := by
    rw [markIfRendering_props]; exact hown
  simp only [assign, hown, proxyPrototype.set, hm, true_or, if_true]
  unfold reflectSet
  cases hl : targetLookup env (Key.str k) with
  | none =>
    simp only [hown1]
    exact ⟨⟨hm, by simp [isCell, assocGet_assocSet_same, Slot.isCell]⟩,
      markIfRendering_renderCalls _ _, markIfRendering_invocations _ _,
      fun _ => assocGet_assocSet_same _ _ _⟩
  | some pp =>
    cases pp with
    | data =>
      simp only [hown1]
      exact ⟨⟨hm, by simp [isCell, assocGet_assocSet_same, Slot.isCell]⟩,
        markIfRendering_renderCalls _ _, markIfRendering_invocations _ _,
        fun _ => assocGet_assocSet_same _ _ _⟩
    | accessor =>
      exact ⟨⟨hm, hcell1⟩, markIfRendering_renderCalls _ _, markIfRendering_invocations _ _,
        fun h => absurd rfl h⟩

/-! ## A pass in which the framework writes no reactive cell -/

theorem quiet_refl (keys : List String) (σ : State) (h : σ.rendering = true) :
    Quiet keys σ σ :=
  ⟨h, rfl, rfl, rfl, rfl, rfl, rfl, fun _ _ => rfl, fun _ => rfl⟩

theorem quiet_trans {keys : List String} {a b c : State} (h1 : Quiet keys a b)
    (h2 : Quiet keys b c) : Quiet keys a c :=
  ⟨h2.rendering, h2.renderCalls.trans h1.renderCalls, h2.invocations.trans h1.invocations,
    h2.rebinds.trans h1.rebinds, h2.shadowChildren.trans h1.shadowChildren,
    h2.eventHandling.trans h1.eventHandling, h2.symbols.trans h1.symbols,
    fun k hk => (h2.kept k hk).trans (h1.kept k hk),
    fun k => (h2.cells k).trans (h1.cells k)⟩

/-- While the guard is up, an assignment to a key that is no reactive cell is a
plain one: it does not throw, renders nothing and installs no cell. -/
theorem assign_quiet (env : Env) (fw : State → State × Except Err Value) (σ : State)
    (keys : List String) (key : String) (value : Value)
    (hr : σ.rendering = true) (hcell : isCell σ key = false) (hkey : key ∉ keys) :
    (assign env fw σ key value).2 = none ∧ Quiet keys σ (assign env fw σ key value).1 := by
  have hset : ∀ τ : State, τ.rendering = true → τ.props = σ.props →
      τ.renderCalls = σ.renderCalls → τ.invocations = σ.invocations →
      τ.rebinds = σ.rebinds → τ.shadowChildren = σ.shadowChildren →
      τ.eventHandling = σ.eventHandling → τ.symbols = σ.symbols →
      Quiet keys σ { τ with props := assocSet key (.data value) τ.props } := by
    intro τ h1 h2 h3 h4 h5 h6 h7 h8
    refine ⟨h1, h3, h4, h5, h6, h7, h8, ?_, ?_⟩
    · intro k hk
      have hne : k ≠ key := fun h => hkey (h ▸ hk)
      simp only [h2]
      exact assocGet_assocSet_other key k _ _ hne
    · intro k
      exact isCell_setData σ _ key value (by simp only [h2]) hcell k
  unfold assign
  cases hown : assocGet key σ.props with
  | some slot =>
    cases slot with
    | data v0 => exact ⟨rfl, hset σ hr rfl rfl rfl rfl rfl rfl rfl⟩
    | cell v0 => simp [isCell, hown, Slot.isCell] at hcell
  | none =>
    have hm := markIfRendering_mark σ (.str key) hr
    have hcell1 : isCell (markIfRendering σ (.str key)) key = false := by
      simpa [isCell, markIfRendering_props] using hcell
    have hq1 : Quiet keys σ (markIfRendering σ (.str key)) :=
      ⟨by rw [markIfRendering_rendering]; exact hr, markIfRendering_renderCalls _ _,
        markIfRendering_invocations _ _, markIfRendering_rebinds _ _,
        markIfRendering_shadowChildren _ _, markIfRendering_eventHandling _ _,
        markIfRendering_symbols _ _, fun k _ => by rw [markIfRendering_props],
        fun k => by simp only [isCell, markIfRendering_props]⟩
    simp only [proxyPrototype.set, hm, true_or, if_true]
    obtain ⟨he, hst⟩ := reflectSet_plain env (markIfRendering σ (.str key)) key value hcell1
    refine ⟨he, ?_⟩
    rcases hst with hst | hst
    · rw [hst]; exact hq1
    · rw [hst]
      exact hset _ hq1.rendering (markIfRendering_props _ _) hq1.renderCalls hq1.invocations
        hq1.rebinds hq1.shadowChildren hq1.eventHandling hq1.symbols

/-- A framework that writes no reactive cell runs its whole pass under the guard,
starts no nested pass, and ends as `Behaviour.result` says. -/
theorem runFramework_quiet (env : Env) (keys : List String) (b : Behaviour) :
    ∀ σ : State, σ.rendering = true → (∀ k, isCell σ k = true → k ∈ keys) →
      b.avoids keys = true →
      (runFramework env b σ).2 = b.result ∧ Quiet keys σ (runFramework env b σ).1 := by
  induction b with
  | returns handle => intro σ hr _ _; exact ⟨rfl, quiet_refl keys σ hr⟩
  | throws e => intro σ hr _ _; exact ⟨rfl, quiet_refl keys σ hr⟩
  | write key value nested next _ ihnext =>
    intro σ hr hcells hav
    simp only [Behaviour.avoids, Bool.and_eq_true, decide_eq_true_eq] at hav
    have hcell : isCell σ key = false := by
      cases h : isCell σ key with
      | false => rfl
      | true => exact absurd (hcells key h) hav.1
    obtain ⟨he, hq⟩ :=
      assign_quiet env (runFramework env nested) σ keys key value hr hcell hav.1
    have hcells1 : ∀ k, isCell (assign env (runFramework env nested) σ key value).1 k = true →
        k ∈ keys := fun k hk => hcells k ((hq.cells k) ▸ hk)
    obtain ⟨hres, hq2⟩ := ihnext _ hq.rendering hcells1 hav.2
    simp only [runFramework, Behaviour.result]
    cases hout : assign env (runFramework env nested) σ key value with
    | mk σ1 err =>
      rw [hout] at he hq hres hq2
      simp only at he
      subst he
      exact ⟨hres, quiet_trans hq hq2⟩

/-- One render pass on a connected instance whose framework writes no reactive
cell: one call, one invocation with the gathered data, one rebinding; the cells
keep their values; the pass ends as the framework does. -/
theorem render_quiet (env : Env) (b : Behaviour) (keys : List String) (σ : State)
    (hc : shouldRender σ = true) (hcells : ∀ k, isCell σ k = true → k ∈ keys)
    (hb : b.avoids keys = true) :
    (render env (runFramework env b) σ).1.renderCalls = σ.renderCalls + 1 ∧
    (render env (runFramework env b) σ).1.invocations = σ.invocations ++ [gather σ] ∧
    (render env (runFramework env b) σ).1.rebinds = σ.rebinds + 1 ∧
    (∀ k, k ∈ keys → assocGet k (render env (runFramework env b) σ).1.props
        = assocGet k σ.props) ∧
    (∀ k, isCell (render env (runFramework env b) σ).1 k = isCell σ k) ∧
    shouldRender (render env (runFramework env b) σ).1 = true ∧
    (∀ handle, b.result = .ok handle →
      (render env (runFramework env b) σ).2 = none ∧
      (render env (runFramework env b) σ).1.rendering = false ∧
      (render env (runFramework env b) σ).1.shadowChildren
        = σ.shadowChildren ++ styleNodes env) ∧
    (∀ e, b.result = .error e →
      (render env (runFramework env b) σ).2 = some e ∧
      (render env (runFramework env b) σ).1.rendering = true ∧
      (render env (runFramework env b) σ).1.shadowChildren = σ.shadowChildren ∧
      (render env (runFramework env b) σ).1.symbols = σ.symbols) := by
  have hstart : isCell (passStart env σ) = isCell σ := rfl
  obtain ⟨hres, hq⟩ := runFramework_quiet env keys b (passStart env σ) rfl
    (fun k hk => hcells k (by rw [hstart] at hk; exact hk)) hb
  rw [render_connected env _ σ hc]
  have hsr : ∀ τ : State, τ.symbols = σ.symbols → shouldRender τ = true := by
    intro τ hτ
    simpa [shouldRender, hτ] using hc
  cases hfw : runFramework env b (passStart env σ) with
  | mk σ4 res =>
    rw [hfw] at hres hq
    simp only at hres
    subst hres
    cases hb2 : b.result with
    | error e =>
      simp only
      refine ⟨hq.renderCalls, hq.invocations, hq.rebinds, hq.kept, hq.cells,
        hsr _ hq.symbols, ?_, ?_⟩
      · intro handle hh; cases hh
      · intro e' he'; cases he'
        exact ⟨rfl, hq.rendering, hq.shadowChildren, hq.symbols⟩
    | ok handle =>
      simp only
      refine ⟨?_, ?_, ?_, ?_, ?_, ?_, ?_, ?_⟩
      · simp only [appendStyle, assignSymbol_renderCalls]; exact hq.renderCalls
      · simp only [appendStyle, assignSymbol_invocations]; exact hq.invocations
      · simp only [appendStyle, assignSymbol_rebinds]; exact hq.rebinds
      · intro k hk
        simp only [appendStyle, assignSymbol_props]; exact hq.kept k hk
      · intro k
        have := hq.cells k
        simpa only [isCell, appendStyle, assignSymbol_props] using this
      · have hne : shouldRenderSymbol ≠ reactComponentSymbol := by decide
        have h1 := assignSymbol_other σ4 reactComponentSymbol shouldRenderSymbol handle hne
        have h2 : assocGet shouldRenderSymbol σ4.symbols = some (.bool true) := by
          rw [hq.symbols]; simpa [shouldRender] using hc
        simp only [shouldRender, appendStyle, h1, h2, decide_True]
      · intro handle' hh; cases hh
        refine ⟨trivial, trivial, ?_⟩
        simp only [appendStyle, assignSymbol_shadowChildren]
        rw [hq.shadowChildren]; rfl
      · intro e' he'; cases he'

/-- Storing a cell and rendering, with a framework that writes none of `keys`,
which contain that cell and every other one. -/
theorem store_render_on (env : Env) (b : Behaviour) (keys : List String) (σ : State)
    (key : String) (value : Value)
    (hkeys : ∀ k, isCell σ k = true → k ∈ keys) (hkey : key ∈ keys)
    (hb : shouldRender σ = true → b.avoids keys = true) :
    ∀ r, r = render env (runFramework env b)
        { σ with props := assocSet key (.cell value) σ.props } →
      isCell r.1 key = true ∧ readOwn r.1 key = some value ∧
      r.1.renderCalls = σ.renderCalls + 1 ∧ shouldRender r.1 = shouldRender σ ∧
      (∀ k, k ≠ key → isCell r.1 k = isCell σ k) ∧
      (shouldRender σ = false →
        r.2 = none ∧ r.1.invocations = σ.invocations ∧ r.1.rebinds = σ.rebinds ∧
        r.1.shadowChildren = σ.shadowChildren ∧ r.1.rendering = σ.rendering) ∧
      (shouldRender σ = true →
        r.1.invocations = σ.invocations ++
          [gather { σ with props := assocSet key (.cell value) σ.props }] ∧
        r.1.rebinds = σ.rebinds + 1 ∧
        (∀ handle, b.result = .ok handle → r.2 = none ∧ r.1.rendering = false ∧
          r.1.shadowChildren = σ.shadowChildren ++ styleNodes env) ∧
        (∀ e, b.result = .error e → r.2 = some e ∧ r.1.rendering = true)) := by
  intro r hr
  have hcellσ' : isCell { σ with props := assocSet key (.cell value) σ.props } key = true := by
    simp [isCell, assocGet_assocSet_same, Slot.isCell]
  have hother : ∀ k, k ≠ key →
      isCell { σ with props := assocSet key (.cell value) σ.props } k = isCell σ k := by
    intro k hk
    simp only [isCell, assocGet_assocSet_other key k _ _ hk]
  cases hc : shouldRender σ with
  | false =>
    have hc' : shouldRender { σ with props := assocSet key (.cell value) σ.props } = false := hc
    rw [render_idle env _ _ hc'] at hr
    subst hr
    refine ⟨hcellσ', ?_, rfl, hc, hother, fun _ => ⟨rfl, rfl, rfl, rfl, rfl⟩,
      fun h => by cases h⟩
    simp [readOwn, assocGet_assocSet_same, Slot.value]
  | true =>
    have hc' : shouldRender { σ with props := assocSet key (.cell value) σ.props } = true := hc
    have hkeys' : ∀ k,
        isCell { σ with props := assocSet key (.cell value) σ.props } k = true →
        k ∈ keys := by
      intro k hk
      by_cases hkk : k = key
      · rw [hkk]; exact hkey
      · rw [hother k hkk] at hk
        exact hkeys k hk
    obtain ⟨h1, h2, h3, h4, h5, h6, h7, h8⟩ := render_quiet env b keys _ hc' hkeys' (hb hc)
    subst hr
    refine ⟨?_, ?_, h1, h6, ?_, fun h => (by cases h), fun _ => ⟨h2, h3, ?_, ?_⟩⟩
    · rw [h5 key]; exact hcellσ'
    · have := h4 key hkey
      simp only [readOwn, this, assocGet_assocSet_same, Option.map_some', Slot.value]
    · intro k hk
      rw [h5 k]; exact hother k hk
    · intro handle hh
      exact h7 handle hh
    · intro e he
      exact ⟨(h8 e he).1, (h8 e he).2.1⟩

/-- Storing a cell and rendering, with a framework that writes neither that cell
nor another one. -/
theorem store_render (env : Env) (b : Behaviour) (σ : State) (key : String) (value : Value)
    (hb : shouldRender σ = true → b.avoids (key :: cellKeys σ) = true) :
    ∀ r, r = render env (runFramework env b)
        { σ with props := assocSet key (.cell value) σ.props } →
      isCell r.1 key = true ∧ readOwn r.1 key = some value ∧
      r.1.renderCalls = σ.renderCalls + 1 ∧ shouldRender r.1 = shouldRender σ ∧
      (∀ k, k ≠ key → isCell r.1 k = isCell σ k) ∧
      (shouldRender σ = false →
        r.2 = none ∧ r.1.invocations = σ.invocations ∧ r.1.rebinds = σ.rebinds ∧
        r.1.shadowChildren = σ.shadowChildren ∧ r.1.rendering = σ.rendering) ∧
      (shouldRender σ = true →
        r.1.invocations = σ.invocations ++
          [gather { σ with props := assocSet key (.cell value) σ.props }] ∧
        r.1.rebinds = σ.rebinds + 1 ∧
        (∀ handle, b.result = .ok handle → r.2 = none ∧ r.1.rendering = false ∧
          r.1.shadowChildren = σ.shadowChildren ++ styleNodes env) ∧
        (∀ e, b.result = .error e → r.2 = some e ∧ r.1.rendering = true)) :=
  store_render_on env b (key :: cellKeys σ) σ key value
    (fun k hk => List.mem_cons_of_mem _ (isCell_mem_cellKeys σ k hk))
    (List.mem_cons_self _ _) hb

/-- C1, as stated, fails: `title` and `connectedCallback` are not declared in the
schema `{ name, age }`, yet their first assignment on the connected example
instance installs no reactive cell and invokes the framework no further time
(`title` is an accessor of `HTMLElement.prototype`, `connectedCallback` an own
property of the prototype built at line 91: both pass `key in target`). Nor does
the undeclared `nickname` become a cell when it is first written while a render
is in progress; and when the framework itself assigns the cell `name` while it
renders, the first write of `nickname` is followed by two invocations, not one. -/
theorem first_write_prototype_name_counterexample :
    shouldRender connectedExample = true ∧
    "title" ∉ observedAttributes exampleEnv ∧
    assocGet "title" connectedExample.props = none ∧
    isCell (assign exampleEnv (runFramework exampleEnv (.returns (.ref 7)))
      connectedExample "title" (.str "x")).1 "title" = false ∧
    (assign exampleEnv (runFramework exampleEnv (.returns (.ref 7)))
      connectedExample "title" (.str "x")).1.invocations = connectedExample.invocations ∧
    "connectedCallback" ∉ observedAttributes exampleEnv ∧
    assocGet "connectedCallback" connectedExample.props = none ∧
    isCell (assign exampleEnv (runFramework exampleEnv (.returns (.ref 7)))
      connectedExample "connectedCallback" (.num 1)).1 "connectedCallback" = false ∧
    (assign exampleEnv (runFramework exampleEnv (.returns (.ref 7)))
      connectedExample "connectedCallback" (.num 1)).1.invocations
        = connectedExample.invocations ∧
    isCell (assign lightEnv (runFramework lightEnv (.returns (.ref 7)))
      lightInPass "nickname" (.str "x")).1 "nickname" = false ∧
    (assign exampleEnv (runFramework exampleEnv rewritesName)
      namedExample "nickname" (.str "x")).1.invocations.length
        = namedExample.invocations.length + 2 := by
  decide

/-- C1 (amended). For every name that the instance does not own yet, that is not
on the prototype chain and not marked in `renderAddedProperties`, and every value,
an assignment made while no render is in progress installs a reactive cell
(whether the schema declares the name plays no part). On a connected instance the
framework is invoked with data that map the name to the value, and exactly once
when the framework writes neither that cell nor another one while it renders; a
read of the name then returns the value. On an instance not yet connected the
framework is not invoked and a read of the name returns the value. -/
theorem first_write_installs_cell (env : Env) (σ : State) (key : String) (value : Value)
    (b : Behaviour)
    (hown : assocGet key σ.props = none) (hguard : σ.rendering = false)
    (hmark : assocGet (Key.str key) σ.renderAddedProperties = none)
    (hproto : keyInTarget env (.str key) = false) :
    isCell (assign env (runFramework env b) σ key value).1 key = true ∧
    (shouldRender σ = true →
      ∃ data rest, (assign env (runFramework env b) σ key value).1.invocations
          = σ.invocations ++ data :: rest ∧ assocGet key data = some value ∧
        (b.avoids (key :: cellKeys σ) = true → rest = [] ∧
          readOwn (assign env (runFramework env b) σ key value).1 key = some value)) ∧
    (shouldRender σ = false →
      (assign env (runFramework env b) σ key value).2 = none ∧
      (assign env (runFramework env b) σ key value).1.invocations = σ.invocations ∧
      readOwn (assign env (runFramework env b) σ key value).1 key = some value) := by
  have hm : assocGet (Key.str key) σ.renderAddedProperties ≠ some true := by simp [hmark]
  rw [assign_fresh env _ σ key value hown hguard hm hproto]
  refine ⟨?_, ?_, ?_⟩
  · exact render_stable env _ (cellAt_stable env key) _
      (runFramework_stable env _ (cellAt_stable env key) b) _
      (by simp [CellAt, isCell, assocGet_assocSet_same, Slot.isCell])
  · intro hc
    obtain ⟨rest, hrest⟩ :=
      render_first env b { σ with props := assocSet key (.cell value) σ.props } hc
    refine ⟨_, rest, hrest, ?_, ?_⟩
    · have hg := assocGet_gather_of_own
        { σ with props := assocSet key (.cell value) σ.props } key (.cell value)
        (assocGet_assocSet_same _ _ _) (by simp [hmark])
      simpa [Slot.value] using hg
    · intro hb
      obtain ⟨_, h2, _, _, _, _, h7⟩ := store_render env b σ key value (fun _ => hb) _ rfl
      have h8 := (h7 hc).1
      rw [h8] at hrest
      exact ⟨by simpa using hrest.symm, h2⟩
  · intro hc
    have hc' : shouldRender { σ with props := assocSet key (.cell value) σ.props } = false := hc
    rw [render_idle env _ _ hc']
    exact ⟨rfl, rfl, by simp [readOwn, assocGet_assocSet_same, Slot.value]⟩

/-- C1 (amended) at the spec's example: `name` written before the connection. -/
theorem first_write_installs_cell_witness :
    isCell (assign exampleEnv (runFramework exampleEnv (.returns (.ref 7)))
      (WebComponent exampleEnv) "name" (.str "Ada")).1 "name" = true :=
  (first_write_installs_cell exampleEnv (WebComponent exampleEnv) "name" (.str "Ada")
    (.returns (.ref 7)) (by decide) (by decide) (by decide) (by decide)).1

/-! ## C2: before and at the connection -/

/-- C3, as stated, fails: `name` is declared in the schema; on the connected
example instance whose framework assigned `name` during the first pass (the name
is then a plain, render-added data property), the attribute-changed notification
stores the string but starts no render pass. Nor does one start for the declared
name `title`, which is found on the prototype chain: the string goes to the native
setter. -/
theorem attribute_change_render_added_counterexample :
    "title" ∈ observedAttributes titledEnv ∧
    shouldRender (run titledEnv (WebComponent titledEnv) [.connected (.returns (.ref 7))])
      = true ∧
    (run titledEnv (WebComponent titledEnv)
      [.connected (.returns (.ref 7)),
       .attributeChanged "title" .null (.str "v") (.returns (.ref 7))]).invocations.length
      = 1 ∧
    "name" ∈ observedAttributes exampleEnv ∧
    shouldRender (run exampleEnv (WebComponent exampleEnv)
      [.connected (.write "name" (.str "x") (.returns (.ref 7)) (.returns (.ref 7)))]) = true ∧
    (run exampleEnv (WebComponent exampleEnv)
      [.connected (.write "name" (.str "x") (.returns (.ref 7)) (.returns (.ref 7)))]
      ).invocations.length = 1 ∧
    (run exampleEnv (WebComponent exampleEnv)
      [.connected (.write "name" (.str "x") (.returns (.ref 7)) (.returns (.ref 7))),
       .attributeChanged "name" (.str "x") (.str "v") (.returns (.ref 7))]
      ).invocations.length = 1 ∧
    readOwn (run exampleEnv (WebComponent exampleEnv)
      [.connected (.write "name" (.str "x") (.returns (.ref 7)) (.returns (.ref 7))),
       .attributeChanged "name" (.str "x") (.str "v") (.returns (.ref 7))]) "name"
      = some (.str "v") := by
  decide

/-- C3 (amended). For every observed name `p` and string `v`, on a connected
instance where `p` either is a reactive cell already, or is not owned, not on the
prototype chain, not marked in `renderAddedProperties` and notified while no render
is in progress: the attribute-changed notification invokes the framework, exactly
once more when the framework writes no reactive cell while it renders, and `p`
then holds exactly the string `v`. -/
theorem attribute_change_rerenders (env : Env) (σ : State) (p : String) (old : Value)
    (v : String) (b : Behaviour)
    (hp : p ∈ observedAttributes env) (hc : shouldRender σ = true)
    (hcase : isCell σ p = true ∨
      (assocGet p σ.props = none ∧ σ.rendering = false ∧
        assocGet (Key.str p) σ.renderAddedProperties = none ∧
        keyInTarget env (.str p) = false)) :
    isCell (deliver env σ (.attributeChanged p old (.str v) b)).1 p = true ∧
    ∃ data rest, (deliver env σ (.attributeChanged p old (.str v) b)).1.invocations
        = σ.invocations ++ data :: rest ∧
      (b.avoids (p :: cellKeys σ) = true → rest = [] ∧
        readOwn (deliver env σ (.attributeChanged p old (.str v) b)).1 p
          = some (.str v)) := by
  have hsome : env.propTypes.isSome = true := by
    unfold observedAttributes at hp
    cases hpt : env.propTypes with
    | none => simp [hpt] at hp
    | some schema => rfl
  have heq : assign env (runFramework env b) σ p (.str v) =
      render env (runFramework env b)
        { σ with props := assocSet p (.cell (.str v)) σ.props } := by
    rcases hcase with h | ⟨h1, h2, h3, h4⟩
    · exact assign_cell env _ σ p _ h
    · exact assign_fresh env _ σ p _ h1 h2 (by simp [h3]) h4
  simp only [deliver, hsome, if_true, attributeChangedCallback, heq]
  refine ⟨?_, ?_⟩
  · exact render_stable env _ (cellAt_stable env p) _
      (runFramework_stable env _ (cellAt_stable env p) b) _
      (by simp [CellAt, isCell, assocGet_assocSet_same, Slot.isCell])
  · obtain ⟨rest, hrest⟩ :=
      render_first env b { σ with props := assocSet p (.cell (.str v)) σ.props } hc
    refine ⟨_, rest, hrest, ?_⟩
    intro hb
    obtain ⟨_, h2, _, _, _, _, h7⟩ := store_render env b σ p (.str v) (fun _ => hb) _ rfl
    have h8 := (h7 hc).1
    rw [h8] at hrest
    exact ⟨by simpa using hrest.symm, h2⟩

/-- C3 (amended) on the connected example instance: `age` notified for the first
time. -/
theorem attribute_change_rerenders_witness :
    isCell (deliver exampleEnv connectedExample
      (.attributeChanged "age" .null (.str "36") (.returns (.ref 7)))).1 "age" = true :=
  (attribute_change_rerenders exampleEnv connectedExample "age" .null "36"
    (.returns (.ref 7)) (by decide) (by decide)
    (Or.inr ⟨by decide, by decide, by decide, by decide⟩)).1

/-! ## C4: the reactive cell -/

/-- C6, as stated, fails for a key that already is a reactive cell: on the
connected example instance with the cell `name`, the framework assigns `name`
inside the pass that a write to `name` started. That write is not captured (the
key has no mark afterwards), the data of the pass in progress (the second
invocation) contain `name`, the write itself started a nested pass (the third
invocation), and a later write from outside renders again. -/
theorem render_time_cell_write_counterexample :
    shouldRender namedExample = true ∧
    namedExample.invocations = [[("name", .str "Ada")]] ∧
    (deliver exampleEnv namedExample (.set "name" (.str "Bob") rewritesName)).1.invocations
      = [[("name", .str "Ada")], [("name", .str "Bob")], [("name", .str "Eve")]] ∧
    assocGet (Key.str "name")
      (deliver exampleEnv namedExample
        (.set "name" (.str "Bob") rewritesName)).1.renderAddedProperties = none ∧
    isCell (deliver exampleEnv namedExample
      (.set "name" (.str "Bob") rewritesName)).1 "name" = true ∧
    (run exampleEnv namedExample
      [.set "name" (.str "Bob") rewritesName,
       .set "name" (.str "Zoe") (.returns (.ref 7))]).invocations.length = 4 := by
  decide

/-- C6 (amended). For every key that the instance does not own, written while
the guard flag is true inside a pass that started at `σ0`: the data gathered for
that pass do not contain the key, the write marks the key as render-added and
makes no render call, and the key is never re-classified: in every later state a
write to it is a plain assignment that installs no reactive cell, makes no render
call and invokes nothing. -/
theorem render_time_key_stays_plain (env : Env) (fw : State → State × Except Err Value)
    (σ0 σ : State) (k : String) (value : Value)
    (hpass : Reach env (passStart env σ0) σ) (hguard : σ.rendering = true)
    (hown : assocGet k σ.props = none) :
    assocGet k (gather σ0) = none ∧
    assocGet (Key.str k) (assign env fw σ k value).1.renderAddedProperties = some true ∧
    isCell (assign env fw σ k value).1 k = false ∧
    (assign env fw σ k value).1.renderCalls = σ.renderCalls ∧
    ∀ σ2, Reach env (assign env fw σ k value).1 σ2 →
      assocGet (Key.str k) σ2.renderAddedProperties = some true ∧
      ∀ (fw' : State → State × Except Err Value) (value' : Value),
        isCell (assign env fw' σ2 k value').1 k = false ∧
        (assign env fw' σ2 k value').1.renderCalls = σ2.renderCalls ∧
        (assign env fw' σ2 k value').1.invocations = σ2.invocations := by
  obtain ⟨h1, h2, _, _⟩ := assign_during_render env fw σ k value hguard hown
  refine ⟨?_, h1.1, h1.2, h2, ?_⟩
  · apply assocGet_gather_of_not_own
    cases h0 : assocGet k σ0.props with
    | none => rfl
    | some slot =>
      have hstart : Owned k (passStart env σ0) := by
        simp [Owned, passStart, h0]
      have := reach_stable env _ (owned_stable env k) _ σ hpass hstart
      simp [Owned, hown] at this
  · intro σ2 hreach
    have hmp := reach_stable env _ (markedPlain_stable env k) _ σ2 hreach h1
    refine ⟨hmp.1, ?_⟩
    intro fw' value'
    exact (assign_markedPlain env fw' σ2 k value' hmp).2

/-- C6 (amended) in the light-DOM example: the framework stores its root inside
a pass; the data of that pass do not contain it. -/
theorem render_time_key_stays_plain_witness :
    assocGet "_reactRootContainer"
      (gather (run lightEnv (WebComponent lightEnv) [.connected (.returns (.ref 7))])) = none :=
  (render_time_key_stays_plain lightEnv (runFramework lightEnv (.returns (.ref 7)))
    (run lightEnv (WebComponent lightEnv) [.connected (.returns (.ref 7))]) lightInPass
    "_reactRootContainer" (.ref 9) Relation.ReflTransGen.refl (by decide) (by decide)).1

/-! ## C7: the introspection traps -/

/-- C7, as stated, fails on its last clause: `toString` has no real descriptor on
the prototype and the schema `{ name, age }` does not declare it, yet the
descriptor query fabricates a descriptor for it, because `key in propTypes` also
accepts the names the schema object inherits. -/
theorem descriptor_inherited_name_counterexample :
    targetOwnDescriptor exampleEnv (.str "toString") = none ∧
    "toString" ∉ observedAttributes exampleEnv ∧
    proxyPrototype.getOwnPropertyDescriptor exampleEnv (.str "toString")
      = .ok (some fabricatedDescriptor) :=
  ⟨by decide, by decide, rfl⟩

/-- C7 (amended). When the component has a schema: for every declared name the
has-key query returns true and, no real descriptor existing on the prototype, the
descriptor query returns exactly the fabricated descriptor; a real descriptor is
returned unmodified; a key without real descriptor gets the fabricated
descriptor also when the schema object merely inherits it, and no descriptor
exactly when `key in propTypes` fails. -/
theorem introspection_traps (env : Env) (schema : Schema) (hs : env.propTypes = some schema)
    (key : Key) :
    (∀ s, key = .str s → s ∈ schema.own → proxyPrototype.has env key = .ok true) ∧
    (∀ s, key = .str s → s ∈ schema.own ∨ s ∈ schema.inherited →
      targetOwnDescriptor env key = none →
      proxyPrototype.getOwnPropertyDescriptor env key = .ok (some fabricatedDescriptor)) ∧
    (∀ d, targetOwnDescriptor env key = some d →
      proxyPrototype.getOwnPropertyDescriptor env key = .ok (some d)) ∧
    (targetOwnDescriptor env key = none → keyInPropTypes env key = .ok false →
      proxyPrototype.getOwnPropertyDescriptor env key = .ok none) ∧
    (keyInPropTypes env key = .ok false ↔
      ∀ s, key = .str s → s ∉ schema.own ∧ s ∉ schema.inherited) := by
  refine ⟨?_, ?_, ?_, ?_, ?_⟩
  · intro s hk hmem
    subst hk
    simp [proxyPrototype.has, keyInPropTypes, hs, hmem]
  · intro s hk hmem hnone
    subst hk
    have : (decide (s ∈ schema.own) || decide (s ∈ schema.inherited)) = true := by
      rcases hmem with h | h <;> simp [h]
    simp [proxyPrototype.getOwnPropertyDescriptor, hnone, keyInPropTypes, hs, this]
  · intro d hd
    simp [proxyPrototype.getOwnPropertyDescriptor, hd]
  · intro hnone hin
    simp [proxyPrototype.getOwnPropertyDescriptor, hnone, hin]
  · cases key with
    | str s => simp [keyInPropTypes, hs]
    | sym s => simp [keyInPropTypes, hs]

/-- C7 (amended) at the spec's example: `age` is declared and was never set. -/
theorem introspection_traps_witness :
    proxyPrototype.has exampleEnv (.str "age") = .ok true :=
  (introspection_traps exampleEnv
    { own := ["name", "age"], inherited := ["constructor", "toString"] }
    rfl (.str "age")).1 "age" rfl (by decide)

/-! ## C8: a framework that throws -/

/-- C10 fails on the code. On the connected example instance with the cell `name`,
a write to `name` starts a pass in which the framework assigns `name` (a nested
pass starts and ends, and its end lowers the guard, line 138) and then the new key
`extra`: the guard being down, `extra` is not marked, becomes a reactive cell and
starts a further nested pass, the fourth invocation. -/
theorem nested_pass_lowers_guard :
    shouldRender namedExample = true ∧
    isCell namedExample "name" = true ∧
    assocGet "extra" namedExample.props = none ∧
    (runFramework exampleEnv rewritesName
      (passStart exampleEnv namedExample)).1.rendering = false ∧
    isCell (deliver exampleEnv namedExample
      (.set "name" (.str "Bob") rewritesNameThenExtra)).1 "extra" = true ∧
    assocGet (Key.str "extra")
      (deliver exampleEnv namedExample
        (.set "name" (.str "Bob") rewritesNameThenExtra)).1.renderAddedProperties = none ∧
    (deliver exampleEnv namedExample
      (.set "name" (.str "Bob") rewritesNameThenExtra)).1.invocations
      = [[("name", .str "Ada")], [("name", .str "Bob")], [("name", .str "Eve")],
         [("name", .str "Eve"), ("extra", .num 1)]] := by
  decide

end R2WC
